import Mathlib

/-!
Verification of the player-face-api core: a shallow embedding of the
memoizing LRU cache (src/cache.rs together with the lru-cache table it
wraps), the skin atlas geometry and resolution rules (src/skin/mod.rs),
the face compositor (src/render.rs), the scale parsing of the boundary
layer (src/web.rs) and the service orchestration and encoded-image
fingerprinting (src/api.rs).

Machine integers of the source (u32, u64, i32, i64, u128, usize) are
modelled as Nat bit patterns, with explicit masking where a cast or an
overflow matters.  Fallible operations return Except or Option; a panic
of the source is modelled as the none result.  Asynchronous loaders are
modelled as pure functions from the key to an Except result: the single
lock in Cache.try_get serializes the whole operation, so its sequential
semantics is exactly the lock-free function below.
-/

namespace PlayerFace

/-! ## The memoizing cache, src/cache.rs

The cache wraps an lru-cache table behind one mutex.  The table is
modelled as a capacity together with the list of live entries ordered
most-recently-used first. -/

structure LruCache (K V : Type) where
  capacity : Nat
  entries : List (K × V)

variable {K V E : Type} [DecidableEq K]

/-- Lookup of the lru-cache table: a hit hands back the stored value and
promotes the entry to most-recently-used (the front of the order). -/
def LruCache.get_mut (c : LruCache K V) (k : K) : Option (V × LruCache K V) :=
  match c.entries.find? (fun e => decide (e.1 = k)) with
  | some e => some (e.2, ⟨c.capacity, (k, e.2) :: c.entries.filter (fun x => !decide (x.1 = k))⟩)
  | none => none

/-- Insertion of the lru-cache table: the key is (re)bound as
most-recently-used and, if the table then exceeds its capacity, the
least-recently-used entry (the back of the order) is dropped. -/
def LruCache.insert (c : LruCache K V) (k : K) (v : V) : LruCache K V :=
  ⟨c.capacity, ((k, v) :: c.entries.filter (fun x => !decide (x.1 = k))).take c.capacity⟩

/-- Cache::new: an empty table of the given capacity. -/
def LruCache.new (capacity : Nat) : LruCache K V := ⟨capacity, []⟩

/-- Cache::clear: empties the table. -/
def LruCache.clear (c : LruCache K V) : LruCache K V := ⟨c.capacity, []⟩

/-- Cache::try_get, src/cache.rs lines 30-44.  The mutex is held for the
whole body, so the async body is equivalent to this sequential function:
look the key up (a hit returns a clone of the stored value), otherwise
run the loader; on success insert the result and return it, on failure
return the error with the table untouched. -/
def Cache.try_get (c : LruCache K V) (k : K) (load : K → Except E V) :
    Except E V × LruCache K V :=
  match c.get_mut k with
  | some (v, c') => (Except.ok v, c')
  | none =>
    match load k with
    | Except.ok v => (Except.ok v, c.insert k v)
    | Except.error e => (Except.error e, c)

/-! ## Atlas geometry, src/skin/mod.rs -/

structure TexRegion where
  origin : Nat × Nat
  size : Nat × Nat
deriving DecidableEq

/-- TexRegion::new. -/
def TexRegion.new (origin : Nat × Nat) (size : Nat × Nat) : TexRegion :=
  ⟨origin, size⟩

structure CuboidTex where
  front : TexRegion
  back : TexRegion
  top : TexRegion
  bottom : TexRegion
  left : TexRegion
  right : TexRegion
deriving DecidableEq

/-- CuboidTex::new, src/skin/mod.rs lines 98-127.  The size triple is
(width, height, depth) = (size.1, size.2.1, size.2.2), matching the
source field order size.0, size.1, size.2. -/
def CuboidTex.new (origin : Nat × Nat) (size : Nat × Nat × Nat) : CuboidTex where
  front := TexRegion.new
    (origin.1 + size.2.2, origin.2 + size.2.2)
    (size.1, size.2.1)
  back := TexRegion.new
    (origin.1 + size.2.2 + size.1, origin.2 + size.2.2)
    (size.1, size.2.1)
  top := TexRegion.new
    (origin.1 + size.2.2, origin.2)
    (size.1, size.2.2)
  bottom := TexRegion.new
    (origin.1 + size.2.2 + size.1, origin.2)
    (size.1, size.2.2)
  left := TexRegion.new
    (origin.1 + size.2.2 + 2 * size.1, origin.2 + size.2.2)
    (size.2.2, size.2.1)
  right := TexRegion.new
    (origin.1, origin.2 + size.2.2)
    (size.2.2, size.2.1)

structure Format where
  head : CuboidTex
  hat : CuboidTex
  body : CuboidTex
  jacket : Option CuboidTex
  right_leg : CuboidTex
  right_pants : Option CuboidTex
  left_leg : CuboidTex
  left_pants : Option CuboidTex
  right_arm : CuboidTex
  right_sleeves : Option CuboidTex
  left_arm : CuboidTex
  left_sleeves : Option CuboidTex
deriving DecidableEq

/-- Format::WIDE_ARMS. -/
def Format.WIDE_ARMS : Format where
  head := CuboidTex.new (0, 0) (8, 8, 8)
  hat := CuboidTex.new (32, 0) (8, 8, 8)
  body := CuboidTex.new (16, 16) (8, 12, 4)
  jacket := some (CuboidTex.new (16, 32) (8, 12, 4))
  right_leg := CuboidTex.new (0, 16) (4, 12, 4)
  right_pants := some (CuboidTex.new (0, 32) (4, 12, 4))
  left_leg := CuboidTex.new (16, 48) (4, 12, 4)
  left_pants := some (CuboidTex.new (0, 48) (4, 12, 4))
  right_arm := CuboidTex.new (40, 16) (4, 12, 4)
  right_sleeves := some (CuboidTex.new (40, 32) (4, 12, 4))
  left_arm := CuboidTex.new (32, 48) (4, 12, 4)
  left_sleeves := some (CuboidTex.new (48, 48) (4, 12, 4))

/-- Format::SLIM_ARMS. -/
def Format.SLIM_ARMS : Format where
  head := CuboidTex.new (0, 0) (8, 8, 8)
  hat := CuboidTex.new (32, 0) (8, 8, 8)
  body := CuboidTex.new (16, 16) (8, 12, 4)
  jacket := some (CuboidTex.new (16, 32) (8, 12, 4))
  right_leg := CuboidTex.new (0, 16) (4, 12, 4)
  right_pants := some (CuboidTex.new (0, 32) (4, 12, 4))
  left_leg := CuboidTex.new (16, 48) (4, 12, 4)
  left_pants := some (CuboidTex.new (0, 48) (4, 12, 4))
  right_arm := CuboidTex.new (40, 16) (3, 12, 4)
  right_sleeves := some (CuboidTex.new (40, 32) (3, 12, 4))
  left_arm := CuboidTex.new (32, 48) (3, 12, 4)
  left_sleeves := some (CuboidTex.new (48, 48) (3, 12, 4))

/-- Format::LEGACY. -/
def Format.LEGACY : Format where
  head := CuboidTex.new (0, 0) (8, 8, 8)
  hat := CuboidTex.new (32, 0) (8, 8, 8)
  body := CuboidTex.new (16, 16) (8, 12, 4)
  jacket := none
  right_leg := CuboidTex.new (0, 16) (4, 12, 4)
  right_pants := none
  left_leg := CuboidTex.new (0, 16) (4, 12, 4)
  left_pants := none
  right_arm := CuboidTex.new (40, 16) (4, 12, 4)
  right_sleeves := none
  left_arm := CuboidTex.new (40, 16) (4, 12, 4)
  left_sleeves := none

/-- The unfold formula exactly as the specification words it (section 4.2):
front at (ox+d, oy+d) size (w, h); back at (ox+d+w, oy+d) size (w, h);
top at (ox+d, oy) size (w, d); bottom at (ox+d+w, oy) size (w, d);
left at (ox+d+2w, oy+d) size (d, h); right at (ox, oy+d) size (d, h). -/
def specUnfold (ox oy w h d : Nat) : CuboidTex where
  front := TexRegion.new (ox + d, oy + d) (w, h)
  back := TexRegion.new (ox + d + w, oy + d) (w, h)
  top := TexRegion.new (ox + d, oy) (w, d)
  bottom := TexRegion.new (ox + d + w, oy) (w, d)
  left := TexRegion.new (ox + d + 2 * w, oy + d) (d, h)
  right := TexRegion.new (ox, oy + d) (d, h)

/-! ## Images and the face compositor, src/render.rs -/

structure Rgba where
  r : Nat
  g : Nat
  b : Nat
  a : Nat
deriving DecidableEq

structure Rgb where
  r : Nat
  g : Nat
  b : Nat
deriving DecidableEq

/-- An RGBA atlas image: dimensions plus the pixel grid. -/
structure RgbaImage where
  width : Nat
  height : Nat
  pixel : Nat → Nat → Rgba

/-- The rendered face: dimensions plus the rows of RGB pixels. -/
structure RgbImage where
  width : Nat
  height : Nat
  rows : List (List Rgb)

/-- Pixel access of the image library: out of bounds is a panic, modelled
as the none result. -/
def RgbaImage.get_pixel (img : RgbaImage) (x y : Nat) : Option Rgba :=
  if x < img.width ∧ y < img.height then some (img.pixel x y) else none

structure Skin where
  image : RgbaImage
  format : Format

structure TexView where
  offset : Nat × Nat
  width : Nat
  height : Nat
  image : RgbaImage

/-- TexView::of, src/render.rs lines 46-53. -/
def TexView.of (region : TexRegion) (image : RgbaImage) : TexView :=
  ⟨region.origin, region.size.1, region.size.2, image⟩

/-- TexView::get_pixel, src/render.rs lines 56-63: a coordinate at or past
the view bounds hits the explicit panic branch, and the underlying image
access panics past the atlas bounds; both panics are modelled as none. -/
def TexView.get_pixel (v : TexView) (x y : Nat) : Option Rgba :=
  if x ≥ v.width ∨ y ≥ v.height then none
  else v.image.get_pixel (x + v.offset.1) (y + v.offset.2)

/-- Modelled from the spec: the alpha blend of a hat pixel over a head
pixel lives in the external image crate, not in this repository; section
4.4 fixes it as standard source-over compositing on the RGBA channels.
No claim depends on the exact channel arithmetic. -/
def blendOver (dst src : Rgba) : Rgba :=
  let outA := src.a + dst.a * (255 - src.a) / 255
  let ch := fun (d s : Nat) => (s * src.a + d * dst.a * (255 - src.a) / 255) / 255
  ⟨ch dst.r src.r, ch dst.g src.g, ch dst.b src.b, outA⟩

/-- render_face, src/render.rs lines 16-35: view the head front and hat
front regions of the atlas, and for every coordinate of the head front
region blend the hat pixel over the head pixel and drop the alpha
channel.  The double loop is row-major (y outer, x inner), matching the
source; any out-of-bounds read makes the whole render none (the source
panic). -/
def renderFace (skin : Skin) : Option RgbImage :=
  let face := TexView.of skin.format.head.front skin.image
  let hat := TexView.of skin.format.hat.front skin.image
  ((List.range face.height).mapM (fun y =>
    (List.range face.width).mapM (fun x => do
      let f ← face.get_pixel x y
      let h ← hat.get_pixel x y
      let blended := blendOver f h
      pure (Rgb.mk blended.r blended.g blended.b)))).map
    (fun rows => ⟨face.width, face.height, rows⟩)

/-- rescale, src/render.rs lines 5-14: nearest-neighbour power-of-two
upscale; output pixel (x, y) copies input pixel (x >>> scale, y >>> scale). -/
def rescale (img : RgbImage) (scale : Nat) : RgbImage :=
  ⟨img.width <<< scale, img.height <<< scale,
    (List.range (img.height <<< scale)).map (fun y =>
      (List.range (img.width <<< scale)).map (fun x =>
        ((img.rows.getD (y >>> scale) []).getD (x >>> scale) ⟨0, 0, 0⟩)))⟩

/-! ## Skin resolution, src/skin/mod.rs lines 141-222 -/

inductive Model
  | Wide
  | Slim
deriving DecidableEq

/-- The texture payload handed back by the profile service: the decoded
RGBA atlas and the optional metadata map (a hash map in the source,
modelled as an association list). -/
structure PlayerTexture where
  image : RgbaImage
  metadata : List (String × String)

/-- HashMap::get on the metadata association list. -/
def metadataGet (metadata : List (String × String)) (key : String) : Option String :=
  (metadata.find? (fun e => decide (e.1 = key))).map (fun e => e.2)

/-- Skin::from, src/skin/mod.rs lines 148-166: the model is Slim exactly
when the metadata maps the model key to the slim value, otherwise Wide;
then the (model, dimensions) pair picks the layout, first match wins, and
any other combination is unsupported (none). -/
def Skin.ofTexture (texture : PlayerTexture) : Option Skin :=
  let model : Model :=
    if metadataGet texture.metadata "model" = some "slim" then Model.Slim else Model.Wide
  let dims : Nat × Nat := (texture.image.width, texture.image.height)
  if model = Model.Wide ∧ dims = (64, 32) then some ⟨texture.image, Format.LEGACY⟩
  else if model = Model.Wide ∧ dims = (64, 64) then some ⟨texture.image, Format.WIDE_ARMS⟩
  else if model = Model.Slim ∧ dims = (64, 64) then some ⟨texture.image, Format.SLIM_ARMS⟩
  else none

/-- The resolution rule table exactly as the specification words it
(section 4.3), first match wins. -/
def specResolveFormat (model : Model) (dims : Nat × Nat) : Option Format :=
  if model = Model.Wide ∧ dims = (64, 32) then some Format.LEGACY
  else if model = Model.Wide ∧ dims = (64, 64) then some Format.WIDE_ARMS
  else if model = Model.Slim ∧ dims = (64, 64) then some Format.SLIM_ARMS
  else none

/-- The model flag as the specification words it: Slim exactly when the
optional metadata says so, absence implies Wide. -/
def specModelOf (meta : Option String) : Model :=
  if meta = some "slim" then Model.Slim else Model.Wide

inductive DefaultSkin
  | Steve
  | Alex
deriving DecidableEq

/-- Arithmetic (sign-extending) right shift of a 64-bit two's-complement
bit pattern h by n places, 1 ≤ n ≤ 63.  When the sign bit is set the top
n bits of the result are ones: since h >>> n < 2 ^ (64 - n), adding
2 ^ 64 - 2 ^ (64 - n) sets exactly those disjoint high bits. -/
def i64Shr (h n : Nat) : Nat :=
  if h.testBit 63 then (h >>> n) + (2 ^ 64 - 2 ^ (64 - n)) else h >>> n

/-- The Java UUID.hashCode reproduction of src/skin/mod.rs lines 206-222,
on the 128-bit identifier bit pattern: msb and lsb are the two 64-bit
halves (the i64 casts keep the bit patterns), hilo their xor; the hash is
the i32 cast of the arithmetic shift hilo >> 32 xored with the i32 cast
of hilo, and each i32 cast keeps the low 32 bits. -/
def uuidHashCode (uuid : Nat) : Nat :=
  let msb := (uuid >>> 64) &&& (2 ^ 64 - 1)
  let lsb := uuid &&& (2 ^ 64 - 1)
  let hilo := msb ^^^ lsb
  ((i64Shr hilo 32) &&& (2 ^ 32 - 1)) ^^^ (hilo &&& (2 ^ 32 - 1))

/-- From Uuid for DefaultSkin: the low bit of the hash picks Steve on 0
and Alex on 1. -/
def DefaultSkin.ofUuid (uuid : Nat) : DefaultSkin :=
  if uuidHashCode uuid &&& 1 = 0 then DefaultSkin.Steve else DefaultSkin.Alex

/-- The selection hash exactly as the specification words it (section
4.3): xor the high and low 64-bit halves of the identifier, then xor the
high and low 32-bit halves of that result. -/
def specSelectionHash (uuid : Nat) : Nat :=
  ((uuid / 2 ^ 64) ^^^ (uuid % 2 ^ 64)) / 2 ^ 32 ^^^ ((uuid / 2 ^ 64) ^^^ (uuid % 2 ^ 64)) % 2 ^ 32

/-- The default-atlas selection as the specification words it: lowest bit
of the final 32-bit value 0 selects atlas A (Steve), else atlas B (Alex). -/
def specDefaultSkin (uuid : Nat) : DefaultSkin :=
  if specSelectionHash uuid % 2 = 0 then DefaultSkin.Steve else DefaultSkin.Alex

/-- Modelled from the spec: the built-in default atlas steve.png is a
binary asset of the repository, not source under src/; the spec fixes
only that it is an atlas using the WideArms layout, and its pixel
contents are irrelevant to every claim.  Modelled as a constant 64x64
image. -/
def steveSkin : Skin :=
  ⟨⟨64, 64, fun _ _ => ⟨0, 0, 0, 255⟩⟩, Format.WIDE_ARMS⟩

/-- Modelled from the spec: the built-in default atlas alex.png, an atlas
using the SlimArms layout; modelled as a constant 64x64 image. -/
def alexSkin : Skin :=
  ⟨⟨64, 64, fun _ _ => ⟨0, 0, 0, 255⟩⟩, Format.SLIM_ARMS⟩

/-- DefaultSkin::as_skin. -/
def DefaultSkin.asSkin : DefaultSkin → Skin
  | DefaultSkin.Steve => steveSkin
  | DefaultSkin.Alex => alexSkin

/-! ## Scale parsing of the boundary layer, src/web.rs lines 51-67 -/

/-- Bit length of a u32 value: the number of exponents k below 32 with
2 ^ k ≤ v.  For a u32 value, leading_zeros v = 32 - bitLen32 v, so the
source expression 31 - leading_zeros v equals bitLen32 v - 1. -/
def bitLen32 (v : Nat) : Nat :=
  ((List.range 32).filter (fun k => decide (2 ^ k ≤ v))).length

/-- log2, src/web.rs lines 61-67.  For a u32 value v, is_power_of_two is
the popcount-one test, equivalently 0 < v together with v AND (v - 1) = 0,
and 31 - leading_zeros v is bitLen32 v - 1. -/
def log2 (value : Nat) : Option Nat :=
  if 0 < value ∧ value &&& (value - 1) = 0 then some (bitLen32 value - 1) else none

/-- parse_scale, src/web.rs lines 51-58. -/
def parse_scale (size : Nat) : Option Nat :=
  if size % 8 = 0 ∧ 8 ≤ size ∧ size ≤ 256 then log2 (size / 8) else none

/-! ## The service layer, src/api.rs

The two network fetches of src/minecraft.rs are external I/O; the
service functions are embedded as functions of the fetch outcomes. -/

inductive MinecraftError
  | Http
  | Io
  | Json
  | Image
  | InvalidImageFormat
deriving DecidableEq

inductive ApiError
  | EncodeImage
  | MinecraftApi
deriving DecidableEq

structure PlayerTextureRef where
  url : String
  metadata : List (String × String)

structure PlayerTextures where
  skin : Option PlayerTextureRef
  cape : Option PlayerTextureRef

/-- The profile, reduced to what get_skin reads from it: the optional
parsed textures property (PlayerProfile::textures in src/minecraft.rs). -/
structure PlayerProfile where
  textures : Option PlayerTextures

/-- get_skin, src/api.rs lines 131-142, as a function of the two fetch
outcomes: a profile fetch error or a texture fetch error propagates (the
question-mark operator, converted to ApiError.MinecraftApi); an absent
profile, absent textures property or absent skin reference yields ok
none; a fetched texture is resolved through Skin::from. -/
def getSkin (profileResult : Except MinecraftError (Option PlayerProfile))
    (textureResult : PlayerTextureRef → Except MinecraftError PlayerTexture) :
    Except ApiError (Option Skin) :=
  match profileResult with
  | Except.error _ => Except.error ApiError.MinecraftApi
  | Except.ok profile =>
    match profile.bind (fun p => p.textures.bind (fun t => t.skin)) with
    | some ref =>
      match textureResult ref with
      | Except.error _ => Except.error ApiError.MinecraftApi
      | Except.ok texture => Except.ok (Skin.ofTexture texture)
    | none => Except.ok none

/-- load_raw_face, src/api.rs lines 119-129, as a function of the
get_skin outcome: an error propagates through the question mark; an
absent skin falls back to the default skin selected from the uuid; the
face is rendered (the inner Option models the render_face panic). -/
def loadRawFace (uuid : Nat) (skinResult : Except ApiError (Option Skin)) :
    Except ApiError (Option RgbImage) :=
  match skinResult with
  | Except.error e => Except.error e
  | Except.ok oskin =>
    Except.ok (renderFace (oskin.getD (DefaultSkin.asSkin (DefaultSkin.ofUuid uuid))))

/-! ## Encoded image fingerprinting, src/api.rs lines 153-178

The etag is the URL-safe unpadded base64 encoding of the SHA-1 digest of
the payload.  The digest and encoder live in the external sha1 and
base64 crates; both are the standard algorithms and are reproduced here
bit for bit (SHA-1 per RFC 3174, base64 with the URL-safe alphabet and
no padding).  Bytes are Nat values below 256. -/

/-- 32-bit left rotation. -/
def rotl32 (x n : Nat) : Nat :=
  ((x <<< n) ||| (x >>> (32 - n))) % 2 ^ 32

/-- Big-endian byte expansion of n into len bytes. -/
def toBEBytes (n len : Nat) : List Nat :=
  (List.range len).map (fun i => (n >>> ((len - 1 - i) * 8)) % 256)

/-- Pack bytes into big-endian 32-bit words, four bytes a word. -/
def bytesToWords : List Nat → List Nat
  | b0 :: b1 :: b2 :: b3 :: rest =>
    ((b0 <<< 24) ||| (b1 <<< 16) ||| (b2 <<< 8) ||| b3) :: bytesToWords rest
  | _ => []

/-- SHA-1 message-schedule extension: one round appends the rotated xor
of the words 3, 8, 14 and 16 places back. -/
def sha1Extend : Nat → List Nat → List Nat
  | 0, w => w
  | n + 1, w =>
    sha1Extend n (w ++ [rotl32
      ((w.getD (w.length - 3) 0) ^^^ (w.getD (w.length - 8) 0) ^^^
        (w.getD (w.length - 14) 0) ^^^ (w.getD (w.length - 16) 0)) 1])

/-- One SHA-1 round on the five-word state. -/
def sha1Round (i wi : Nat) (st : Nat × Nat × Nat × Nat × Nat) :
    Nat × Nat × Nat × Nat × Nat :=
  let (a, b, c, d, e) := st
  let fk : Nat × Nat :=
    if i < 20 then ((b &&& c) ||| ((b ^^^ (2 ^ 32 - 1)) &&& d), 0x5A827999)
    else if i < 40 then (b ^^^ c ^^^ d, 0x6ED9EBA1)
    else if i < 60 then ((b &&& c) ||| (b &&& d) ||| (c &&& d), 0x8F1BBCDC)
    else (b ^^^ c ^^^ d, 0xCA62C1D6)
  let temp := (rotl32 a 5 + fk.1 + e + fk.2 + wi) % 2 ^ 32
  (temp, a, rotl32 b 30, c, d)

/-- One SHA-1 chunk: extend the sixteen words to eighty, run the eighty
rounds, add the result into the running state. -/
def sha1Chunk (st : Nat × Nat × Nat × Nat × Nat) (words : List Nat) :
    Nat × Nat × Nat × Nat × Nat :=
  let w := sha1Extend 64 words
  let r := (List.range 80).foldl (fun s i => sha1Round i (w.getD i 0) s) st
  ((st.1 + r.1) % 2 ^ 32, (st.2.1 + r.2.1) % 2 ^ 32, (st.2.2.1 + r.2.2.1) % 2 ^ 32,
    (st.2.2.2.1 + r.2.2.2.1) % 2 ^ 32, (st.2.2.2.2 + r.2.2.2.2) % 2 ^ 32)

/-- SHA-1 padding: the 0x80 marker, zeros to 56 mod 64 bytes, and the
64-bit big-endian bit length. -/
def sha1Pad (msg : List Nat) : List Nat :=
  let k := (119 - msg.length % 64) % 64
  msg ++ [0x80] ++ List.replicate k 0 ++ toBEBytes (msg.length * 8) 8

/-- The SHA-1 digest of a byte string, twenty bytes. -/
def sha1 (msg : List Nat) : List Nat :=
  let padded := sha1Pad msg
  let st := (List.range (padded.length / 64)).foldl
    (fun st i => sha1Chunk st (bytesToWords ((padded.drop (64 * i)).take 64)))
    (0x67452301, 0xEFCDAB89, 0x98BADCFE, 0x10325476, 0xC3D2E1F0)
  toBEBytes st.1 4 ++ toBEBytes st.2.1 4 ++ toBEBytes st.2.2.1 4 ++
    toBEBytes st.2.2.2.1 4 ++ toBEBytes st.2.2.2.2 4

/-- The URL-safe base64 alphabet: A-Z, a-z, 0-9, minus, underscore. -/
def base64UrlChar (n : Nat) : Char :=
  if n < 26 then Char.ofNat (65 + n)
  else if n < 52 then Char.ofNat (97 + (n - 26))
  else if n < 62 then Char.ofNat (48 + (n - 52))
  else if n = 62 then Char.ofNat 45
  else Char.ofNat 95

/-- URL-safe unpadded base64: full three-byte groups give four digits, a
two-byte tail three digits, a one-byte tail two digits, no padding. -/
def base64Groups : List Nat → List Char
  | b0 :: b1 :: b2 :: rest =>
    let n := (b0 <<< 16) ||| (b1 <<< 8) ||| b2
    base64UrlChar (n >>> 18) :: base64UrlChar ((n >>> 12) % 64) ::
      base64UrlChar ((n >>> 6) % 64) :: base64UrlChar (n % 64) :: base64Groups rest
  | [b0, b1] =>
    let n := (b0 <<< 16) ||| (b1 <<< 8)
    [base64UrlChar (n >>> 18), base64UrlChar ((n >>> 12) % 64),
      base64UrlChar ((n >>> 6) % 64)]
  | [b0] =>
    let n := b0 <<< 16
    [base64UrlChar (n >>> 18), base64UrlChar ((n >>> 12) % 64)]
  | [] => []

def base64UrlNoPad (bytes : List Nat) : String :=
  String.mk (base64Groups bytes)

structure ImageBytes where
  bytes : List Nat
  etag : String

/-- ImageBytes::matches, src/api.rs lines 161-166. -/
def ImageBytes.matches (img : ImageBytes) (etag : Option String) : Bool :=
  match etag with
  | some e => decide (img.etag = e)
  | none => false

/-- From Bytes for ImageBytes, src/api.rs lines 169-178: the etag is the
URL-safe unpadded base64 encoding of the SHA-1 digest of the payload. -/
def ImageBytes.ofBytes (bytes : List Nat) : ImageBytes :=
  { bytes := bytes, etag := base64UrlNoPad (sha1 bytes) }

/-! ## Theorems -/

/-- Claim C3: for every part origin (ox, oy) and physical size (w, h, d)
the six texture regions computed by CuboidTex.new equal exactly the
specification unfold formula, and in particular the WideArms head front
region is origin (8, 8) size (8, 8) and the SlimArms right arm front
region has width 3. -/
theorem cuboid_unfold_formula (ox oy w h d : Nat) :
    CuboidTex.new (ox, oy) (w, h, d) = specUnfold ox oy w h d ∧
    Format.WIDE_ARMS.head.front = TexRegion.new (8, 8) (8, 8) ∧
    Format.SLIM_ARMS.right_arm.front.size.1 = 3 :=
  ⟨rfl, rfl, rfl⟩

/-- Claim C10: the content fingerprint of an encoded image is the
URL-safe unpadded base64 encoding of the SHA-1 digest of the byte
payload, hence a deterministic pure function of the payload; every
ImageBytes matches its own fingerprint and never matches an absent one. -/
theorem image_bytes_fingerprint (bytes : List Nat) :
    (ImageBytes.ofBytes bytes).etag = base64UrlNoPad (sha1 bytes) ∧
    (ImageBytes.ofBytes bytes).matches (some (ImageBytes.ofBytes bytes).etag) = true ∧
    (ImageBytes.ofBytes bytes).matches none = false :=
  ⟨rfl, by simp [ImageBytes.matches], rfl⟩

/-- Claim C5: skin resolution follows the first-match rule table of the
specification, with the model derived from the optional metadata and
absence of the metadata implying Wide. -/
theorem skin_resolution_rule_table (texture : PlayerTexture) :
    Skin.ofTexture texture =
      (specResolveFormat (specModelOf (metadataGet texture.metadata "model"))
        (texture.image.width, texture.image.height)).map
        (fun format => ⟨texture.image, format⟩) ∧
    (metadataGet texture.metadata "model" = none →
      specModelOf (metadataGet texture.metadata "model") = Model.Wide) := by
  constructor
  · by_cases hm : metadataGet texture.metadata "model" = some "slim" <;>
      simp only [Skin.ofTexture, specResolveFormat, specModelOf, hm, if_pos, if_neg,
        if_true, if_false] <;>
      split_ifs <;> simp_all
  · intro h
    simp [specModelOf, h]

/-- Witness for claim C5 at a concrete texture with empty metadata and a
64x64 atlas. -/
theorem skin_resolution_rule_table_witness :
    Skin.ofTexture ⟨⟨64, 64, fun _ _ => ⟨0, 0, 0, 255⟩⟩, []⟩ =
      some ⟨⟨64, 64, fun _ _ => ⟨0, 0, 0, 255⟩⟩, Format.WIDE_ARMS⟩ ∧
    specModelOf (metadataGet [] "model") = Model.Wide := by
  have h := skin_resolution_rule_table ⟨⟨64, 64, fun _ _ => ⟨0, 0, 0, 255⟩⟩, []⟩
  exact ⟨by rw [h.1]; rfl, h.2 rfl⟩

/-- Claim C1: try_get against the LRU table.  On a hit the stored value
is returned, the entry becomes most-recently-used and the loader is
irrelevant; on a miss with a successful load the result is inserted as
most-recently-used and returned, and when the table was full exactly the
least-recently-used entry (the back of the use order) is dropped. -/
theorem cache_try_get_lru {K V E : Type} [DecidableEq K]
    (c : LruCache K V) (k : K) (load : K → Except E V) (hcap : 1 ≤ c.capacity) :
    (∀ (v : V) (c' : LruCache K V), c.get_mut k = some (v, c') →
      Cache.try_get c k load = (Except.ok v, c') ∧
      c'.entries = (k, v) :: c.entries.filter (fun x => !decide (x.1 = k)) ∧
      ∀ load₂ : K → Except E V, Cache.try_get c k load₂ = Cache.try_get c k load) ∧
    (∀ v : V, c.get_mut k = none → load k = Except.ok v →
      Cache.try_get c k load = (Except.ok v, c.insert k v) ∧
      (c.insert k v).entries = (k, v) :: c.entries.take (c.capacity - 1) ∧
      (c.entries.length = c.capacity →
        (c.insert k v).entries = (k, v) :: c.entries.dropLast)) := by
  constructor
  · intro v c' hget
    refine ⟨by simp [Cache.try_get, hget], ?_, ?_⟩
    · unfold LruCache.get_mut at hget
      cases hfind : c.entries.find? (fun e => decide (e.1 = k)) with
      | none => rw [hfind] at hget; exact absurd hget (by simp)
      | some e =>
        rw [hfind] at hget
        simp only [Option.some.injEq, Prod.mk.injEq] at hget
        obtain ⟨hv, hc⟩ := hget
        rw [← hc, ← hv]
    · intro load₂
      simp [Cache.try_get, hget]
  · intro v hmiss hload
    have hfind : c.entries.find? (fun e => decide (e.1 = k)) = none := by
      unfold LruCache.get_mut at hmiss
      cases hfind : c.entries.find? (fun e => decide (e.1 = k)) with
      | none => rfl
      | some e => rw [hfind] at hmiss; exact absurd hmiss (by simp)
    have hfilter : c.entries.filter (fun x => !decide (x.1 = k)) = c.entries := by
      rw [List.filter_eq_self]
      intro a ha
      simpa using List.find?_eq_none.mp hfind a ha
    have hins : (c.insert k v).entries = (k, v) :: c.entries.take (c.capacity - 1) := by
      obtain ⟨n, hn⟩ : ∃ n, c.capacity = n + 1 := ⟨c.capacity - 1, by omega⟩
      simp only [LruCache.insert, hfilter, hn, List.take_succ_cons, Nat.add_sub_cancel]
    refine ⟨by simp [Cache.try_get, hmiss, hload], hins, fun hlen => ?_⟩
    rw [hins, List.dropLast_eq_take, hlen]

/-- Witness for claim C1: a full capacity-2 cache takes a miss on key 3;
the loaded value is inserted most-recently-used and the entry (2, 20),
the least-recently-used one, is evicted. -/
theorem cache_try_get_lru_witness :
    Cache.try_get (⟨2, [(1, 10), (2, 20)]⟩ : LruCache Nat Nat) 3
        (fun _ => (Except.ok 30 : Except Unit Nat)) =
      (Except.ok 30, LruCache.insert ⟨2, [(1, 10), (2, 20)]⟩ 3 30) ∧
    (LruCache.insert (⟨2, [(1, 10), (2, 20)]⟩ : LruCache Nat Nat) 3 30).entries =
      [(3, 30), (1, 10)] := by
  have h := (cache_try_get_lru (⟨2, [(1, 10), (2, 20)]⟩ : LruCache Nat Nat) 3
      (fun _ => (Except.ok 30 : Except Unit Nat)) (by decide)).2 30 rfl rfl
  refine ⟨h.1, ?_⟩
  rw [h.2.2 rfl]
  rfl

/-- Claim C6: a failed load returns the error to the caller and leaves
the cache state literally unchanged, so a subsequent call with the same
key runs a fresh load and takes the insertion path. -/
theorem cache_failed_load_not_cached {K V E : Type} [DecidableEq K]
    (c : LruCache K V) (k : K) (load : K → Except E V) (e : E)
    (hmiss : c.get_mut k = none) (hload : load k = Except.error e) :
    Cache.try_get c k load = (Except.error e, c) ∧
    ∀ (load₂ : K → Except E V) (v : V), load₂ k = Except.ok v →
      Cache.try_get c k load₂ = (Except.ok v, c.insert k v) := by
  refine ⟨by simp [Cache.try_get, hmiss, hload], ?_⟩
  intro load₂ v h
  simp [Cache.try_get, hmiss, h]

/-- Witness for claim C6: a failing loader on an empty cache returns the
error with the cache unchanged, and a retry with a succeeding loader
inserts the fresh value. -/
theorem cache_failed_load_not_cached_witness :
    Cache.try_get (⟨2, []⟩ : LruCache Nat Nat) 1
        (fun _ => (Except.error 7 : Except Nat Nat)) =
      (Except.error 7, (⟨2, []⟩ : LruCache Nat Nat)) ∧
    Cache.try_get (⟨2, []⟩ : LruCache Nat Nat) 1
        (fun _ => (Except.ok 5 : Except Nat Nat)) =
      (Except.ok 5, LruCache.insert ⟨2, []⟩ 1 5) := by
  have h := cache_failed_load_not_cached (⟨2, []⟩ : LruCache Nat Nat) 1
      (fun _ => (Except.error 7 : Except Nat Nat)) 7 rfl rfl
  exact ⟨h.1, h.2 (fun _ => (Except.ok 5 : Except Nat Nat)) 5 rfl⟩

/-- Counterexample to claim C8: the requested size 24 is a multiple of 8
inside the range 8 to 256, yet parse_scale rejects it, because 24 / 8 = 3
is not a power of two and the exponent would not be an integer. -/
theorem parse_scale_counterexample :
    ¬ (∀ size : Nat, size % 8 = 0 → 8 ≤ size → size ≤ 256 →
      (parse_scale size).isSome = true) := by
  intro h
  exact absurd (h 24 (by decide) (by decide) (by decide)) (by decide)

/-- Claim C8 as amended: the boundary layer accepts exactly the sizes
8 * 2 ^ k with k at most 5 (that is 8, 16, 32, 64, 128, 256: the
multiples of 8 in the range whose quotient by 8 is a power of two), maps
such a size to the exponent k, and rejects every other size. -/
theorem parse_scale_amended (size k : Nat) :
    parse_scale size = some k ↔ size = 8 * 2 ^ k ∧ k ≤ 5 := by
  constructor
  · intro h
    unfold parse_scale at h
    split at h
    case isTrue hcond =>
      obtain ⟨h8, hge, hle⟩ := hcond
      unfold log2 at h
      split at h
      case isTrue hpow =>
        simp only [Option.some.injEq] at h
        have hq : 8 * (size / 8) = size := Nat.mul_div_cancel' (Nat.dvd_of_mod_eq_zero h8)
        have hq1 : 1 ≤ size / 8 := hpow.1
        have hq2 : size / 8 ≤ 32 := by omega
        have hbit := hpow.2
        set q := size / 8 with hqdef
        clear_value q
        subst h
        interval_cases q <;>
          first
          | exact absurd hbit (by decide)
          | exact ⟨by rw [← hq]; decide, by decide⟩
      case isFalse => exact absurd h (by simp)
    case isFalse => exact absurd h (by simp)
  · rintro ⟨rfl, hk⟩
    interval_cases k <;> decide

/-- Witness for claim C8 as amended: size 64 is accepted with exponent
3. -/
theorem parse_scale_amended_witness : parse_scale 64 = some 3 :=
  (parse_scale_amended 64 3).mpr ⟨by decide, by decide⟩

/-! ### The default-skin selection hash, claim C4 -/

theorem shiftRight32_lt (h : Nat) (hh : h < 2 ^ 64) : h >>> 32 < 2 ^ 32 := by
  rw [Nat.shiftRight_eq_div_pow]
  exact Nat.div_lt_of_lt_mul (by norm_num at hh ⊢; omega)

/-- Masking the arithmetic shift to 32 bits ignores the sign extension:
the i32 cast of hilo >> 32 is the logical shift. -/
theorem i64Shr_and_mask (h : Nat) (hh : h < 2 ^ 64) :
    i64Shr h 32 &&& (2 ^ 32 - 1) = h >>> 32 := by
  have h32 := shiftRight32_lt h hh
  unfold i64Shr
  split
  · rw [Nat.and_pow_two_sub_one_eq_mod,
      show (2 : Nat) ^ 64 - 2 ^ (64 - 32) = 2 ^ 32 * (2 ^ 32 - 1) by norm_num,
      Nat.add_mul_mod_self_left]
    exact Nat.mod_eq_of_lt h32
  · rw [Nat.and_pow_two_sub_one_eq_mod]
    exact Nat.mod_eq_of_lt h32

/-- For a 128-bit identifier the source hash agrees bit for bit with the
hash as the specification words it. -/
theorem uuidHashCode_eq_spec (u : Nat) (hu : u < 2 ^ 128) :
    uuidHashCode u = specSelectionHash u := by
  simp only [uuidHashCode, specSelectionHash]
  have hdiv : u / 2 ^ 64 < 2 ^ 64 := Nat.div_lt_of_lt_mul (by norm_num at hu ⊢; omega)
  have hmsb : (u >>> 64) &&& (2 ^ 64 - 1) = u / 2 ^ 64 := by
    rw [Nat.and_pow_two_sub_one_eq_mod, Nat.shiftRight_eq_div_pow]
    exact Nat.mod_eq_of_lt hdiv
  have hlsb : u &&& (2 ^ 64 - 1) = u % 2 ^ 64 := Nat.and_pow_two_sub_one_eq_mod u 64
  rw [hmsb, hlsb]
  have hlt : (u / 2 ^ 64) ^^^ (u % 2 ^ 64) < 2 ^ 64 :=
    Nat.xor_lt_two_pow hdiv (Nat.mod_lt u (by norm_num))
  rw [i64Shr_and_mask _ hlt, Nat.and_pow_two_sub_one_eq_mod, Nat.shiftRight_eq_div_pow]

/-- The low bit of the specification hash is the xor of the identifier
bits 96, 32, 64 and 0. -/
theorem specSelectionHash_testBit_zero (u : Nat) :
    (specSelectionHash u).testBit 0 =
      ((u.testBit 96 ^^ u.testBit 32) ^^ (u.testBit 64 ^^ u.testBit 0)) := by
  simp only [specSelectionHash, ← Nat.shiftRight_eq_div_pow, Nat.testBit_xor,
    Nat.testBit_shiftRight, Nat.testBit_mod_two_pow]
  norm_num

/-- Flipping the lowest identifier bit flips the low bit of the hash. -/
theorem specSelectionHash_flip (u : Nat) :
    (specSelectionHash (u ^^^ 1)).testBit 0 = ! (specSelectionHash u).testBit 0 := by
  rw [specSelectionHash_testBit_zero, specSelectionHash_testBit_zero]
  have hb : ∀ i, i ≠ 0 → (u ^^^ 1).testBit i = u.testBit i := by
    intro i hi
    rw [Nat.testBit_xor]
    have : Nat.testBit 1 i = false := by
      cases hb1 : Nat.testBit 1 i
      · rfl
      · exact absurd (Nat.testBit_one_eq_true_iff_self_eq_zero.mp hb1) hi
    simp [this]
  have h0 : (u ^^^ 1).testBit 0 = ! u.testBit 0 := by
    rw [Nat.testBit_xor]
    simp [Nat.testBit_one_eq_true_iff_self_eq_zero]
  rw [hb 96 (by omega), hb 32 (by omega), hb 64 (by omega), h0]
  cases u.testBit 96 <;> cases u.testBit 32 <;> cases u.testBit 64 <;>
    cases u.testBit 0 <;> rfl

/-- Flipping the lowest identifier bit flips the parity of the hash. -/
theorem specSelectionHash_flip_mod (u : Nat) :
    specSelectionHash (u ^^^ 1) % 2 ≠ specSelectionHash u % 2 := by
  have hflip := specSelectionHash_flip u
  rcases Nat.mod_two_eq_zero_or_one (specSelectionHash u) with h | h <;>
    rcases Nat.mod_two_eq_zero_or_one (specSelectionHash (u ^^^ 1)) with h' | h' <;>
    simp [Nat.testBit_zero, h, h'] at hflip ⊢

/-- Claim C4: for every 128-bit identifier the default-atlas selection
equals the specification procedure (xor the 64-bit halves, xor the
32-bit halves of the result, low bit 0 selects Steve and 1 selects
Alex) — repeated calls agree because the selection is a pure function —
and flipping the lowest identifier bit flips the selection. -/
theorem default_skin_selection (u : Nat) (hu : u < 2 ^ 128) :
    DefaultSkin.ofUuid u = specDefaultSkin u ∧
    DefaultSkin.ofUuid (u ^^^ 1) ≠ DefaultSkin.ofUuid u := by
  have key : ∀ v, v < 2 ^ 128 → DefaultSkin.ofUuid v = specDefaultSkin v := by
    intro v hv
    unfold DefaultSkin.ofUuid specDefaultSkin
    rw [uuidHashCode_eq_spec v hv, Nat.and_one_is_mod]
  have hu1 : u ^^^ 1 < 2 ^ 128 := Nat.xor_lt_two_pow hu (by norm_num)
  refine ⟨key u hu, ?_⟩
  rw [key u hu, key _ hu1]
  intro heq
  apply specSelectionHash_flip_mod u
  unfold specDefaultSkin at heq
  by_cases h1 : specSelectionHash (u ^^^ 1) % 2 = 0
  all_goals by_cases h2 : specSelectionHash u % 2 = 0
  all_goals simp [h1, h2] at heq ⊢
  all_goals omega

/-- Witness for claim C4 at the identifier 0: the hash is 0, Steve is
selected, the specification procedure agrees, and flipping the lowest
bit selects Alex. -/
theorem default_skin_selection_witness :
    DefaultSkin.ofUuid 0 = specDefaultSkin 0 ∧
    DefaultSkin.ofUuid 0 = DefaultSkin.Steve ∧
    DefaultSkin.ofUuid (0 ^^^ 1) = DefaultSkin.Alex :=
  ⟨(default_skin_selection 0 (by norm_num)).1, by decide, by decide⟩

/-! ### Render-face bounds, claims C9 and C7 -/

/-- An Option-monad mapM over a list succeeds when every element read
succeeds. -/
theorem mapM_option_isSome {α β : Type} (f : α → Option β) :
    ∀ l : List α, (∀ a ∈ l, (f a).isSome = true) → (l.mapM f).isSome = true := by
  intro l
  induction l with
  | nil => intro _; rfl
  | cons a t ih =>
    intro h
    rw [List.mapM_cons]
    obtain ⟨b, hb⟩ := Option.isSome_iff_exists.mp (h a (List.mem_cons_self a t))
    obtain ⟨bs, hbs⟩ := Option.isSome_iff_exists.mp
      (ih (fun x hx => h x (List.mem_cons_of_mem a hx)))
    rw [hb, hbs]
    rfl

/-- A view read succeeds when the coordinate is inside the view and the
whole region lies inside the atlas. -/
theorem texView_get_pixel_isSome (region : TexRegion) (img : RgbaImage) (x y : Nat)
    (hx : x < region.size.1) (hy : y < region.size.2)
    (hw : region.origin.1 + region.size.1 ≤ img.width)
    (hh : region.origin.2 + region.size.2 ≤ img.height) :
    ((TexView.of region img).get_pixel x y).isSome = true := by
  have h1 : ¬ (x ≥ region.size.1 ∨ y ≥ region.size.2) := by omega
  have h2 : x + region.origin.1 < img.width ∧ y + region.origin.2 < img.height := by omega
  simp [TexView.of, TexView.get_pixel, RgbaImage.get_pixel, h1, h2]

/-- The render succeeds whenever the head-front and hat-front regions lie
inside the atlas and the hat front is at least as large as the head
front. -/
theorem renderFace_isSome_of_bounds (skin : Skin)
    (hw1 : skin.format.head.front.origin.1 + skin.format.head.front.size.1 ≤ skin.image.width)
    (hh1 : skin.format.head.front.origin.2 + skin.format.head.front.size.2 ≤ skin.image.height)
    (hw2 : skin.format.hat.front.origin.1 + skin.format.hat.front.size.1 ≤ skin.image.width)
    (hh2 : skin.format.hat.front.origin.2 + skin.format.hat.front.size.2 ≤ skin.image.height)
    (hs1 : skin.format.head.front.size.1 ≤ skin.format.hat.front.size.1)
    (hs2 : skin.format.head.front.size.2 ≤ skin.format.hat.front.size.2) :
    (renderFace skin).isSome = true := by
  simp only [renderFace, Option.isSome_map']
  apply mapM_option_isSome
  intro y hy
  apply mapM_option_isSome
  intro x hx
  simp only [TexView.of, List.mem_range] at hx hy
  have hface := texView_get_pixel_isSome skin.format.head.front skin.image x y hx hy hw1 hh1
  have hhat := texView_get_pixel_isSome skin.format.hat.front skin.image x y
    (lt_of_lt_of_le hx hs1) (lt_of_lt_of_le hy hs2) hw2 hh2
  obtain ⟨fv, hfv⟩ := Option.isSome_iff_exists.mp hface
  obtain ⟨hv, hhv⟩ := Option.isSome_iff_exists.mp hhat
  rw [hfv, hhv]
  rfl

/-- Claim C9: for every atlas whose dimensions match its preset's
supported size (64x32 for Legacy, 64x64 for WideArms and SlimArms) the
face render succeeds: neither the view-bounds panic branch of
TexView::get_pixel nor the atlas-bounds panic of the pixel access is
reachable. -/
theorem render_face_in_bounds (skin : Skin)
    (h : (skin.format = Format.LEGACY ∧ skin.image.width = 64 ∧ skin.image.height = 32) ∨
         (skin.format = Format.WIDE_ARMS ∧ skin.image.width = 64 ∧ skin.image.height = 64) ∨
         (skin.format = Format.SLIM_ARMS ∧ skin.image.width = 64 ∧ skin.image.height = 64)) :
    (renderFace skin).isSome = true := by
  obtain ⟨hf, hw, hh⟩ | ⟨hf, hw, hh⟩ | ⟨hf, hw, hh⟩ := h <;>
    (apply renderFace_isSome_of_bounds <;> simp only [hf, hw, hh] <;> decide)

/-- Witness for claim C9: the render of a concrete 64x64 WideArms atlas
succeeds. -/
theorem render_face_in_bounds_witness :
    (renderFace ⟨⟨64, 64, fun _ _ => ⟨0, 0, 0, 255⟩⟩, Format.WIDE_ARMS⟩).isSome = true :=
  render_face_in_bounds _ (Or.inr (Or.inl ⟨rfl, rfl, rfl⟩))

/-- Counterexample to claim C7: when the atlas fetch itself fails (a
transport error from the profile fetch), load_raw_face returns the
error instead of substituting the default atlas: the fallback only
covers the absent and unsupported cases. -/
theorem face_fallback_counterexample :
    loadRawFace 0 (getSkin (Except.error MinecraftError.Http)
        (fun _ => Except.error MinecraftError.Http)) =
      Except.error ApiError.MinecraftApi ∧
    (loadRawFace 0 (getSkin (Except.error MinecraftError.Http)
        (fun _ => Except.error MinecraftError.Http))).isOk = false :=
  ⟨rfl, rfl⟩

/-- Claim C7 as amended: when the atlas lookup completes without a
transport error but yields no usable atlas — fetched atlas with
unsupported dimensions or model, or no atlas at all — load_raw_face
substitutes the deterministically selected default atlas for the
identifier and the render of that default succeeds; a transport-level
fetch failure, by contrast, propagates as an error. -/
theorem face_fallback_amended (uuid : Nat)
    (profileResult : Except MinecraftError (Option PlayerProfile))
    (textureResult : PlayerTextureRef → Except MinecraftError PlayerTexture) :
    (∀ (ref : PlayerTextureRef) (cape : Option PlayerTextureRef) (texture : PlayerTexture),
      profileResult = Except.ok (some ⟨some ⟨some ref, cape⟩⟩) →
      textureResult ref = Except.ok texture →
      Skin.ofTexture texture = none →
      getSkin profileResult textureResult = Except.ok none) ∧
    (getSkin profileResult textureResult = Except.ok none →
      loadRawFace uuid (getSkin profileResult textureResult) =
        Except.ok (renderFace ((DefaultSkin.ofUuid uuid).asSkin)) ∧
      (renderFace ((DefaultSkin.ofUuid uuid).asSkin)).isSome = true) := by
  constructor
  · intro ref cape texture hp ht hskin
    subst hp
    simp [getSkin, ht, hskin]
  · intro hok
    rw [hok]
    refine ⟨rfl, ?_⟩
    cases DefaultSkin.ofUuid uuid
    · apply renderFace_isSome_of_bounds <;> decide
    · apply renderFace_isSome_of_bounds <;> decide

/-- Witness for claim C7 as amended: a fetched 100x100 atlas is
unsupported, the lookup yields ok-none, and the default atlas for
identifier 0 renders successfully. -/
theorem face_fallback_amended_witness :
    getSkin (Except.ok (some ⟨some ⟨some ⟨"u", []⟩, none⟩⟩))
        (fun _ => Except.ok ⟨⟨100, 100, fun _ _ => ⟨0, 0, 0, 255⟩⟩, []⟩) =
      Except.ok none ∧
    loadRawFace 0 (Except.ok none) = Except.ok (renderFace steveSkin) ∧
    (renderFace ((DefaultSkin.ofUuid 0).asSkin)).isSome = true := by
  have h := face_fallback_amended 0 (Except.ok (some ⟨some ⟨some ⟨"u", []⟩, none⟩⟩))
      (fun _ => Except.ok ⟨⟨100, 100, fun _ _ => ⟨0, 0, 0, 255⟩⟩, []⟩)
  have h1 := h.1 ⟨"u", []⟩ none ⟨⟨100, 100, fun _ _ => ⟨0, 0, 0, 255⟩⟩, []⟩ rfl rfl rfl
  have h2 := h.2 h1
  have h3 := h2.1
  rw [h1] at h3
  exact ⟨h1, h3, h2.2⟩

end PlayerFace
